import Mathlib

/-!
Shallow embedding of the symptom-intake pipeline of the `studio` repository:
the zod form schema and cross-field refinements, the client-side image
validator, the medical-history normalization and request shaping performed in
`onSubmit` (src/components/symptom-form.tsx), the inference flow and stub
diagnosis service (src/ai/flows/analyze-symptoms.ts,
src/services/medical-diagnosis.ts), and the confidence classifier / renderer
(src/components/diagnosis-results.tsx).

JavaScript numbers are modelled as rationals (`Rat`); `undefined` as `Option`;
JS truthiness of numbers and strings is spelled out where the source relies on
it.  Browser primitives (`FileReader.readAsDataURL`, `String.prototype.trim`,
`split`, `toLowerCase`) are modelled by executable Lean functions with the
standard semantics of those APIs.
-/

namespace Studio

/-- `Symptom` interface from src/services/medical-diagnosis.ts. -/
structure Symptom where
  name : String
  severity : String
deriving Repr, DecidableEq

/-- `MedicalHistory` interface (normalized form: lists of strings). -/
structure MedicalHistory where
  pastConditions : List String
  currentMedications : List String
deriving Repr, DecidableEq

/-- `Diagnosis` interface from src/services/medical-diagnosis.ts. -/
structure Diagnosis where
  condition : String
  confidence : String
deriving Repr, DecidableEq

/-- `getDiagnosis` from src/services/medical-diagnosis.ts: the stub service
body returns a fixed two-element list and ignores both arguments (its
asynchrony carries no failure path, so it is modelled as a pure function). -/
def getDiagnosis (_symptoms : List Symptom) (_medicalHistory : MedicalHistory) :
    List Diagnosis :=
  [{ condition := "Common Cold", confidence := "High" },
   { condition := "Flu", confidence := "Medium" }]

/-- `AnalyzeSymptomsOutput` from src/ai/flows/analyze-symptoms.ts. -/
structure AnalyzeSymptomsOutput where
  diagnoses : List Diagnosis
deriving Repr, DecidableEq

/-! ## JavaScript string primitives used by the form -/

/-- The WhiteSpace / LineTerminator character set trimmed by
`String.prototype.trim` (space, tab, LF, CR, VT, FF, NBSP, BOM, Unicode
space separators, LS, PS). -/
def isJsWhitespace (c : Char) : Bool :=
  c = ' ' || c = '\t' || c = '\n' || c = '\r' || c = '\x0b' || c = '\x0c' ||
  c = ' ' || c = '﻿' || c = ' ' ||
  (0x2000 ≤ c.toNat && c.toNat ≤ 0x200a) ||
  c = ' ' || c = ' ' || c = ' ' || c = ' ' || c = '　'

/-- `s.split(',')` on the character list: accumulator-based splitting that
keeps empty segments, exactly like the JavaScript `String.prototype.split`
with a one-character separator (`"".split(',')` gives `[""]`). -/
def splitCommaAux : List Char → List Char → List (List Char)
  | [], acc => [acc.reverse]
  | c :: cs, acc =>
    if c = ',' then acc.reverse :: splitCommaAux cs []
    else splitCommaAux cs (c :: acc)

/-- Remove the maximal trailing run of characters satisfying `p`. -/
def dropTrailingWhile (p : Char → Bool) (l : List Char) : List Char :=
  l.foldr (fun c acc => if acc.isEmpty && p c then acc else c :: acc) []

/-- `String.prototype.trim` on a character list: drop the maximal leading and
trailing runs of JS whitespace. -/
def jsTrimChars (l : List Char) : List Char :=
  dropTrailingWhile isJsWhitespace (l.dropWhile isJsWhitespace)

/-- `String.prototype.trim`. -/
def jsTrim (s : String) : String := ⟨jsTrimChars s.data⟩

/-- `value.split(',').map(s => s.trim()).filter(s => s)` from `onSubmit` in
src/components/symptom-form.tsx (`filter(s => s)` keeps exactly the truthy,
i.e. non-empty, strings). -/
def normalizeField (s : String) : List String :=
  (((splitCommaAux s.data []).map jsTrimChars).filter (fun l => !l.isEmpty)).map
    (fun l => ⟨l⟩)

/-- `value?.split(',').map(s => s.trim()).filter(s => s) ?? []`: the optional
chain short-circuits an absent source to the empty list. -/
def normalizeHistoryField : Option String → List String
  | none => []
  | some s => normalizeField s

/-- Raw (textarea) medical history as held by the form state. -/
structure RawMedicalHistory where
  pastConditions : Option String
  currentMedications : Option String
deriving Repr, DecidableEq

/-- The `formattedMedicalHistory` object built in `onSubmit`. -/
def formatMedicalHistory (h : RawMedicalHistory) : MedicalHistory :=
  { pastConditions := normalizeHistoryField h.pastConditions,
    currentMedications := normalizeHistoryField h.currentMedications }

/-! ## Files and base64 data URIs -/

/-- A browser `File`: the declared MIME type (`file.type`), the byte size
(`file.size`) and the content bytes read by `FileReader`. -/
structure BrowserFile where
  size : Nat
  mimeType : String
  bytes : List Nat
deriving Repr, DecidableEq

/-- The 64-character base64 alphabet. -/
def base64Alphabet : List Char :=
  "ABCDEFGHIJKLMNOPQRSTUVWXYZabcdefghijklmnopqrstuvwxyz0123456789+/".data

/-- Character for one 6-bit group. -/
def base64EncodeChar (n : Nat) : Char := (base64Alphabet.get? n).getD 'A'

/-- Standard base64 with `=` padding, three input bytes per four output
characters. -/
def base64Encode : List Nat → List Char
  | [] => []
  | [b1] =>
    [base64EncodeChar (b1 / 4), base64EncodeChar (b1 % 4 * 16), '=', '=']
  | [b1, b2] =>
    [base64EncodeChar (b1 / 4), base64EncodeChar (b1 % 4 * 16 + b2 / 16),
     base64EncodeChar (b2 % 16 * 4), '=']
  | b1 :: b2 :: b3 :: rest =>
    base64EncodeChar (b1 / 4) :: base64EncodeChar (b1 % 4 * 16 + b2 / 16) ::
    base64EncodeChar (b2 % 16 * 4 + b3 / 64) :: base64EncodeChar (b3 % 64) ::
    base64Encode rest

/-- Models the browser `FileReader.readAsDataURL` used by `fileToDataUri` and
by the preview path of `handleImageChange` in src/components/symptom-form.tsx:
the result is `data:<media-type>;base64,<base64 of the content bytes>`. -/
def readAsDataURL (f : BrowserFile) : String :=
  "data:" ++ f.mimeType ++ ";base64," ++ String.mk (base64Encode f.bytes)

/-- A media-type-prefixed base64 data-URI string: `data:<mime>;base64,<body>`
with every body character drawn from the base64 alphabet or `=` padding. -/
def IsDataUri (s : String) : Prop :=
  ∃ mime body, s = "data:" ++ mime ++ ";base64," ++ body ∧
    ∀ c ∈ body.data, c ∈ base64Alphabet ∨ c = '='

/-! ## The zod form schema (src/components/symptom-form.tsx) -/

/-- `MAX_FILE_SIZE = 10 * 1024 * 1024`. -/
def MAX_FILE_SIZE : Nat := 10 * 1024 * 1024

/-- `ACCEPTED_IMAGE_TYPES`. -/
def ACCEPTED_IMAGE_TYPES : List String :=
  ["image/jpeg", "image/jpg", "image/png", "image/webp", "image/dicom"]

/-- The raw form state validated by `formSchema` (`FormData`).  JS numbers are
rationals, `undefined` is `none`; `medicalImage` is the optional `FileList`. -/
structure RawForm where
  name : String
  age : Option Rat
  weight : Option Rat
  weightUnit : Option String
  height : Option Rat
  heightUnit : Option String
  gender : String
  symptoms : List Symptom
  medicalHistory : RawMedicalHistory
  medicalImage : Option (List BrowserFile)
deriving Repr, DecidableEq

/-- One zod issue: the field path it is attached to and its message. -/
structure FieldError where
  path : List String
  message : String
deriving Repr, DecidableEq

/-- Per-field issues for `name`: `z.string().min(1, 'Name is required.')`. -/
def nameErrors (d : RawForm) : List FieldError :=
  if d.name = "" then [⟨["name"], "Name is required."⟩] else []

/-- Per-field issues for `age`:
`z.coerce.number().int().positive('Age must be a positive number.').min(1, 'Age is required.')`;
an `undefined` field coerces to NaN and fails with a fatal invalid-type issue
(aborting the base parse), while the `.int`/`.positive`/`.min` check failures
are non-fatal and merely mark the parse dirty. -/
def ageErrors (d : RawForm) : List FieldError :=
  match d.age with
  | none => [⟨["age"], "Expected number, received nan"⟩]
  | some a =>
    (if a.den ≠ 1 then [⟨["age"], "Expected integer, received float"⟩] else []) ++
    (if ¬ 0 < a then [⟨["age"], "Age must be a positive number."⟩] else []) ++
    (if a < 1 then [⟨["age"], "Age is required."⟩] else [])

/-- Per-field issues for `weight`:
`z.coerce.number().positive('Weight must be positive').optional()`. -/
def weightErrors (d : RawForm) : List FieldError :=
  match d.weight with
  | none => []
  | some w => if ¬ 0 < w then [⟨["weight"], "Weight must be positive"⟩] else []

/-- Per-field issues for `height`:
`z.coerce.number().positive('Height must be positive').optional()`. -/
def heightErrors (d : RawForm) : List FieldError :=
  match d.height with
  | none => []
  | some h => if ¬ 0 < h then [⟨["height"], "Height must be positive"⟩] else []

/-- Per-field issues for `gender`: `z.string().min(1, 'Gender is required.')`. -/
def genderErrors (d : RawForm) : List FieldError :=
  if d.gender = "" then [⟨["gender"], "Gender is required."⟩] else []

/-- Element issues for `symptomSchema` at index `i`. -/
def symptomElementErrors (i : Nat) (s : Symptom) : List FieldError :=
  (if s.name = "" then
     [⟨["symptoms", toString i, "name"], "Symptom name is required."⟩]
   else []) ++
  (if s.severity = "" then
     [⟨["symptoms", toString i, "severity"], "Severity is required."⟩]
   else [])

/-- Per-field issues for `symptoms`:
`z.array(symptomSchema).min(1, 'Please add at least one symptom.')`. -/
def symptomsErrors (d : RawForm) : List FieldError :=
  (if d.symptoms.isEmpty then
     [⟨["symptoms"], "Please add at least one symptom."⟩]
   else []) ++
  (d.symptoms.enum.map fun p => symptomElementErrors p.1 p.2).flatten

/-- Per-field issues for `medicalImage`: the two non-fatal `.refine` checks on
`files?.[0]` (size then declared type), both evaluated when a file is
present. -/
def medicalImageErrors (d : RawForm) : List FieldError :=
  match d.medicalImage with
  | none => []
  | some [] => []
  | some (f :: _) =>
    (if ¬ f.size ≤ MAX_FILE_SIZE then
       [⟨["medicalImage"], "Max image size is 10MB."⟩]
     else []) ++
    (if ¬ f.mimeType ∈ ACCEPTED_IMAGE_TYPES then
       [⟨["medicalImage"],
         "Only .jpg, .jpeg, .png, .webp and .dicom formats are supported."⟩]
     else [])

/-- All per-field issues of the base `z.object`, in declaration order.
(`weightUnit`, `heightUnit` and the `medicalHistory` strings are optional with
no checks of their own.) -/
def perFieldErrors (d : RawForm) : List FieldError :=
  nameErrors d ++ ageErrors d ++ weightErrors d ++ heightErrors d ++
  genderErrors d ++ symptomsErrors d ++ medicalImageErrors d

/-- JS truthiness of an optional number (`undefined` and `0` are falsy). -/
def truthyNum : Option Rat → Bool
  | none => false
  | some v => v ≠ 0

/-- JS truthiness of an optional string (`undefined` and `''` are falsy). -/
def truthyStr : Option String → Bool
  | none => false
  | some s => s ≠ ""

/-- The two object-level `.refine` cross-field checks of `formSchema`:
`data.weight ? !!data.weightUnit : true` attaching to path `weightUnit`, and
the symmetric check for height.  Both refinement issues are non-fatal, so
when the refinements run at all, both run. -/
def refineErrors (d : RawForm) : List FieldError :=
  (if truthyNum d.weight && !truthyStr d.weightUnit then
     [⟨["weightUnit"], "Weight unit is required if weight is provided."⟩]
   else []) ++
  (if truthyNum d.height && !truthyStr d.heightUnit then
     [⟨["heightUnit"], "Height unit is required if height is provided."⟩]
   else [])

/-- Whether the base `z.object` parse aborts with a fatal issue.  Check
failures (`.min`, `.positive`, `.int`, the array minimum, the image
refinements) are non-fatal dirty issues; the only fatal (aborting) issue
reachable from the form's typed state is the `invalid_type` raised when the
age field is `undefined` and `z.coerce.number()` produces NaN. -/
def baseAborted (d : RawForm) : Bool := d.age.isNone

/-- Full `formSchema` validation, following zod's effect semantics: the two
object-level refinements are skipped only when the base object parse aborted
on a fatal type-level issue; non-fatal check failures leave the parse dirty
and the refinements still run, appending their issues to the per-field ones.
The empty result means the form state is valid. -/
def formValidate (d : RawForm) : List FieldError :=
  if baseAborted d then perFieldErrors d
  else perFieldErrors d ++ refineErrors d

/-! ## The client-side image intake validator (`handleImageChange`) -/

/-- Size-violation message built from the template literal
`Max image size is [MAX_FILE_SIZE / 1024 / 1024]MB.`. -/
def handleSizeErrMsg : String :=
  "Max image size is " ++ toString (MAX_FILE_SIZE / 1024 / 1024) ++ "MB."

/-- Type-violation message of `handleImageChange`. -/
def handleTypeErrMsg : String :=
  "Invalid file type. Please upload an image (JPEG, PNG, WEBP) or DICOM file."

/-- The slice of component/form state touched by `handleImageChange`:
the preview, the RHF `medicalImage` value, the raw `<input>` control value and
the standing error on the `medicalImage` field. -/
structure ImageFieldState where
  imagePreview : Option String
  fieldValue : Option (List BrowserFile)
  inputValue : String
  fieldError : Option String
deriving Repr, DecidableEq

/-- `handleImageChange` from src/components/symptom-form.tsx, as a state
transformer on the image-field slice.  `files` is `event.target.files`;
`readOk` tells whether the asynchronous `FileReader` preview read succeeds
(its failure path raises a toast, which is a side channel not tracked here,
and leaves the field empty). -/
def handleImageChange (st : ImageFieldState) (files : Option (List BrowserFile))
    (readOk : Bool) : ImageFieldState :=
  match files with
  | some (f :: _) =>
    if f.size > MAX_FILE_SIZE then
      { st with fieldError := some handleSizeErrMsg, imagePreview := none,
                fieldValue := none, inputValue := "" }
    else if ¬ f.mimeType ∈ ACCEPTED_IMAGE_TYPES then
      { st with fieldError := some handleTypeErrMsg, imagePreview := none,
                fieldValue := none, inputValue := "" }
    else if readOk then
      { st with fieldError := none, imagePreview := some (readAsDataURL f),
                fieldValue := files }
    else
      { st with fieldError := none, imagePreview := none, fieldValue := none,
                inputValue := "" }
  | _ =>
    { st with imagePreview := none, fieldValue := none }

/-! ## Request shaping and submission (`onSubmit`) -/

/-- The flattened request object built in `onSubmit` and passed to
`analyzeSymptoms` (the `AnalyzeSymptomsInput` layout of the form component):
profile fields, symptom list, normalized history, optional data URI. -/
structure AnalyzeSymptomsInput where
  name : String
  age : Option Rat
  weight : Option Rat
  weightUnit : Option String
  height : Option Rat
  heightUnit : Option String
  gender : String
  symptoms : List Symptom
  medicalHistory : MedicalHistory
  imageDataUri : Option String
deriving Repr, DecidableEq

/-- The `input` object literal of `onSubmit`: every profile field is passed
through unchanged, the history is normalized, and the image slot carries the
data URI computed at submit time (or `undefined`). -/
def buildAnalyzeInput (data : RawForm) (imageDataUri : Option String) :
    AnalyzeSymptomsInput :=
  { name := data.name,
    age := data.age,
    weight := data.weight,
    weightUnit := data.weightUnit,
    height := data.height,
    heightUnit := data.heightUnit,
    gender := data.gender,
    symptoms := data.symptoms,
    medicalHistory := formatMedicalHistory data.medicalHistory,
    imageDataUri := imageDataUri }

/-- The generic message set by `onSubmit` when the submit-time image
re-encoding rejects. -/
def imageProcessErrorMsg : String :=
  "Failed to process the uploaded image. Please try again."

/-- The generic message set by `onSubmit` when the inference call throws. -/
def analysisErrorMsg : String :=
  "An error occurred while analyzing symptoms. The AI model might have limitations with image analysis or the input provided. Please ensure the image is clear and relevant, or try removing it. If the problem persists, contact support."

/-- Component state relevant to `onSubmit`: the loading flag, the rendered
results, the submission-level error message, and the form field values (which
`onSubmit` never rewrites). -/
structure ComponentState where
  isLoading : Bool
  results : Option AnalyzeSymptomsOutput
  error : Option String
  formData : RawForm
deriving Repr, DecidableEq

/-- `onSubmit` from src/components/symptom-form.tsx.  `encodeOk` resolves the
`fileToDataUri` promise (on success it yields `readAsDataURL` of the first
file); `gatewayResult` resolves the `analyzeSymptoms` call.  The second
component of the result is the request actually handed to the inference call,
`none` when the submission aborted before any network call. -/
def onSubmit (st : ComponentState) (encodeOk : Bool)
    (gatewayResult : Except Unit AnalyzeSymptomsOutput) :
    ComponentState × Option AnalyzeSymptomsInput :=
  let st1 : ComponentState :=
    { st with isLoading := true, error := none, results := none }
  let proceed : Option String → ComponentState × Option AnalyzeSymptomsInput :=
    fun uri =>
      let input := buildAnalyzeInput st.formData uri
      match gatewayResult with
      | .ok out =>
        ({ st1 with results := some out, isLoading := false }, some input)
      | .error _ =>
        ({ st1 with error := some analysisErrorMsg, isLoading := false },
         some input)
  match st.formData.medicalImage with
  | some (f :: _) =>
    if encodeOk then proceed (some (readAsDataURL f))
    else
      ({ st1 with error := some imageProcessErrorMsg, isLoading := false },
       none)
  | _ => proceed none

/-- `analyzeSymptomsFlow` from src/ai/flows/analyze-symptoms.ts: calls
`getDiagnosis` on the symptoms and history of the request and wraps the
result. -/
def analyzeSymptomsFlow (input : AnalyzeSymptomsInput) : AnalyzeSymptomsOutput :=
  { diagnoses := getDiagnosis input.symptoms input.medicalHistory }

/-! ## The result classifier / renderer (src/components/diagnosis-results.tsx) -/

/-- The four icon treatments produced by `getConfidenceIcon`. -/
inductive ConfidenceIcon where
  | checkCircleGreen
  | alertTriangleYellow
  | helpCircleOrange
  | helpCircleMuted
deriving Repr, DecidableEq

/-- The badge variants of the UI library. -/
inductive BadgeVariant where
  | defaultVariant
  | secondary
  | destructive
  | outline
deriving Repr, DecidableEq

/-- `confidence.toLowerCase()` (ASCII case folding, as `toLowerCase` acts on
the confidence labels involved). -/
def jsToLower (s : String) : String := ⟨s.data.map Char.toLower⟩

/-- `getConfidenceIcon`: switch on the lower-cased confidence string with a
default branch. -/
def getConfidenceIcon (confidence : String) : ConfidenceIcon :=
  if jsToLower confidence = "high" then .checkCircleGreen
  else if jsToLower confidence = "medium" then .alertTriangleYellow
  else if jsToLower confidence = "low" then .helpCircleOrange
  else .helpCircleMuted

/-- `getConfidenceVariant`: switch on the lower-cased confidence string with a
default branch. -/
def getConfidenceVariant (confidence : String) : BadgeVariant :=
  if jsToLower confidence = "high" then .defaultVariant
  else if jsToLower confidence = "medium" then .secondary
  else if jsToLower confidence = "low" then .outline
  else .outline

/-- One rendered list entry: condition heading, badge text, icon and badge
variant derived from the confidence. -/
structure RenderedDiagnosis where
  condition : String
  confidence : String
  icon : ConfidenceIcon
  badge : BadgeVariant
deriving Repr, DecidableEq

/-- The `<li>` built for one diagnosis by the `results.diagnoses.map` body. -/
def renderDiagnosis (d : Diagnosis) : RenderedDiagnosis :=
  { condition := d.condition,
    confidence := d.confidence,
    icon := getConfidenceIcon d.confidence,
    badge := getConfidenceVariant d.confidence }

/-- What the `DiagnosisResults` component renders: either the single
informational no-conditions card or the ordered list of entries. -/
inductive RenderOutput where
  | noConditions
  | conditionsList (items : List RenderedDiagnosis)
deriving Repr, DecidableEq

/-- The `DiagnosisResults` component: the guard
`!results || !results.diagnoses || results.diagnoses.length === 0` produces
the informational card; otherwise the diagnoses are mapped in order. -/
def diagnosisResults : Option AnalyzeSymptomsOutput → RenderOutput
  | none => .noConditions
  | some o =>
    match o.diagnoses with
    | [] => .noConditions
    | ds => .conditionsList (ds.map renderDiagnosis)

/-! ## Helper lemmas -/

/-- Whatever survives `dropWhile p` starts with a character failing `p`. -/
theorem dropWhile_head_false (p : Char → Bool) :
    ∀ (l : List Char) (c : Char) (cs : List Char),
      l.dropWhile p = c :: cs → p c = false := by
  intro l
  induction l with
  | nil => intro c cs h; simp [List.dropWhile] at h
  | cons a l ih =>
    intro c cs h
    by_cases ha : p a
    · rw [List.dropWhile_cons_of_pos ha] at h
      exact ih c cs h
    · rw [List.dropWhile_cons_of_neg ha] at h
      cases h
      exact Bool.of_not_eq_true ha

/-- Unfolding equation of `dropTrailingWhile`. -/
theorem dropTrailingWhile_cons (p : Char → Bool) (c : Char) (cs : List Char) :
    dropTrailingWhile p (c :: cs) =
      if (dropTrailingWhile p cs).isEmpty && p c then dropTrailingWhile p cs
      else c :: dropTrailingWhile p cs := rfl

/-- The last character surviving `dropTrailingWhile p` fails `p`. -/
theorem dropTrailingWhile_getLast_false (p : Char → Bool) :
    ∀ (l : List Char) (c : Char),
      (dropTrailingWhile p l).getLast? = some c → p c = false := by
  intro l
  induction l with
  | nil => intro c h; simp [dropTrailingWhile] at h
  | cons a l ih =>
    intro c h
    rw [dropTrailingWhile_cons] at h
    by_cases hcond : (dropTrailingWhile p l).isEmpty && p a
    · rw [if_pos hcond, List.isEmpty_iff.mp (Bool.and_elim_left hcond)] at h
      simp at h
    · rw [if_neg hcond] at h
      cases ht : dropTrailingWhile p l with
      | nil =>
        rw [ht] at h
        simp at h
        rw [ht] at hcond
        simp at hcond
        rw [← h]
        exact hcond
      | cons b bs =>
        rw [ht] at h
        rw [List.getLast?_cons_cons] at h
        rw [← ht] at h
        exact ih c h

/-- `dropTrailingWhile` preserves the head when the result is nonempty. -/
theorem dropTrailingWhile_head (p : Char → Bool) (l : List Char) (c : Char)
    (cs : List Char) (h : dropTrailingWhile p l = c :: cs) :
    ∃ cs', l = c :: cs' := by
  cases l with
  | nil => simp [dropTrailingWhile] at h
  | cons a l' =>
    rw [dropTrailingWhile_cons] at h
    by_cases hcond : (dropTrailingWhile p l').isEmpty && p a
    · rw [if_pos hcond, List.isEmpty_iff.mp (Bool.and_elim_left hcond)] at h
      cases h
    · rw [if_neg hcond] at h
      cases h
      exact ⟨l', rfl⟩

/-- The head of a trimmed character list is not JS whitespace. -/
theorem jsTrimChars_head_false (l : List Char) (c : Char) (cs : List Char)
    (h : jsTrimChars l = c :: cs) : isJsWhitespace c = false := by
  unfold jsTrimChars at h
  obtain ⟨cs', h'⟩ := dropTrailingWhile_head isJsWhitespace _ c cs h
  exact dropWhile_head_false isJsWhitespace l c cs' h'

/-- The last character of a trimmed character list is not JS whitespace. -/
theorem jsTrimChars_getLast_false (l : List Char) (c : Char)
    (h : (jsTrimChars l).getLast? = some c) : isJsWhitespace c = false :=
  dropTrailingWhile_getLast_false isJsWhitespace _ c h

/-- Every character of `base64EncodeChar` output is in the alphabet. -/
theorem base64EncodeChar_mem (n : Nat) : base64EncodeChar n ∈ base64Alphabet := by
  unfold base64EncodeChar
  cases h : base64Alphabet.get? n with
  | none => simp only [Option.getD_none]; decide
  | some c =>
    simp only [Option.getD_some]
    exact List.get?_mem h

/-- Every character emitted by `base64Encode` is an alphabet character or the
`=` padding. -/
theorem base64Encode_mem :
    ∀ (l : List Nat), ∀ c ∈ base64Encode l, c ∈ base64Alphabet ∨ c = '=' := by
  intro l
  induction l using base64Encode.induct with
  | case1 => simp [base64Encode]
  | case2 b1 =>
    simp only [base64Encode, List.mem_cons, List.not_mem_nil, or_false]
    intro c hc
    rcases hc with rfl | rfl | rfl | rfl
    · exact Or.inl (base64EncodeChar_mem _)
    · exact Or.inl (base64EncodeChar_mem _)
    · exact Or.inr rfl
    · exact Or.inr rfl
  | case3 b1 b2 =>
    simp only [base64Encode, List.mem_cons, List.not_mem_nil, or_false]
    intro c hc
    rcases hc with rfl | rfl | rfl | rfl
    · exact Or.inl (base64EncodeChar_mem _)
    · exact Or.inl (base64EncodeChar_mem _)
    · exact Or.inl (base64EncodeChar_mem _)
    · exact Or.inr rfl
  | case4 b1 b2 b3 rest ih =>
    simp only [base64Encode, List.mem_cons]
    intro c hc
    rcases hc with rfl | rfl | rfl | rfl | hc
    · exact Or.inl (base64EncodeChar_mem _)
    · exact Or.inl (base64EncodeChar_mem _)
    · exact Or.inl (base64EncodeChar_mem _)
    · exact Or.inl (base64EncodeChar_mem _)
    · exact ih c hc

/-- `readAsDataURL` always yields a media-type-prefixed base64 data URI. -/
theorem readAsDataURL_isDataUri (f : BrowserFile) : IsDataUri (readAsDataURL f) :=
  ⟨f.mimeType, ⟨base64Encode f.bytes⟩, rfl, fun c hc => base64Encode_mem f.bytes c hc⟩

/-! ## Claim theorems -/

/-- C10: the in-repo inference service `getDiagnosis` is a constant function:
for every symptom list and every medical history it returns exactly
`[{Common Cold, High}, {Flu, Medium}]`, so its output is independent of its
input and `analyzeSymptomsFlow` yields the same diagnoses on every request. -/
theorem getDiagnosis_constant :
    (∀ s h, getDiagnosis s h =
      [{ condition := "Common Cold", confidence := "High" },
       { condition := "Flu", confidence := "Medium" }]) ∧
    (∀ s h s' h', getDiagnosis s h = getDiagnosis s' h') ∧
    (∀ input, analyzeSymptomsFlow input =
      ⟨[{ condition := "Common Cold", confidence := "High" },
        { condition := "Flu", confidence := "Medium" }]⟩) :=
  ⟨fun _ _ => rfl, fun _ _ _ _ => rfl, fun _ => rfl⟩

/-- C8: the renderer produces the single informational no-conditions state
exactly when the diagnosis sequence is absent or empty. -/
theorem diagnosisResults_noConditions_iff (r : Option AnalyzeSymptomsOutput) :
    diagnosisResults r = .noConditions ↔ r = none ∨ r = some ⟨[]⟩ := by
  cases r with
  | none => simp [diagnosisResults]
  | some o =>
    obtain ⟨ds⟩ := o
    cases ds with
    | nil => simp [diagnosisResults]
    | cons d rest => simp [diagnosisResults]

/-- C7: the renderer is order-preserving: a non-empty diagnosis sequence is
rendered as the item list obtained by mapping each diagnosis in place, so the
conditions and confidence labels appear in exactly the gateway's order. -/
theorem renderer_order_preserving (ds : List Diagnosis) (hne : ds ≠ []) :
    ∃ items, diagnosisResults (some ⟨ds⟩) = .conditionsList items ∧
      items = ds.map renderDiagnosis ∧
      items.map RenderedDiagnosis.condition = ds.map Diagnosis.condition ∧
      items.map RenderedDiagnosis.confidence = ds.map Diagnosis.confidence := by
  cases ds with
  | nil => exact absurd rfl hne
  | cons d rest =>
    refine ⟨(d :: rest).map renderDiagnosis, rfl, rfl, ?_, ?_⟩ <;>
      simp [List.map_map, renderDiagnosis, Function.comp_def]

/-- C7 witness: `[{A, Medium}, {B, High}]` renders as `[A, B]`, not reordered
by confidence. -/
theorem renderer_order_preserving_witness :
    (∃ items,
      diagnosisResults
          (some ⟨[{ condition := "A", confidence := "Medium" },
                  { condition := "B", confidence := "High" }]⟩) =
        .conditionsList items ∧
      items = [{ condition := "A", confidence := "Medium" },
               { condition := "B", confidence := "High" }].map renderDiagnosis ∧
      items.map RenderedDiagnosis.condition =
        [{ condition := "A", confidence := "Medium" },
         { condition := "B", confidence := "High" }].map Diagnosis.condition ∧
      items.map RenderedDiagnosis.confidence =
        [{ condition := "A", confidence := "Medium" },
         { condition := "B", confidence := "High" }].map Diagnosis.confidence) ∧
    [{ condition := "A", confidence := "Medium" },
     { condition := "B", confidence := "High" }].map Diagnosis.condition = ["A", "B"] :=
  ⟨renderer_order_preserving
      [{ condition := "A", confidence := "Medium" },
       { condition := "B", confidence := "High" }] (by decide), by decide⟩

/-- C6: the confidence classifier is total over strings, matches
High/Medium/Low case-insensitively (depending only on the lower-cased label),
and sends every other value to the default muted/outline "unknown"
treatment. -/
theorem confidence_classifier_total (s : String) :
    (∀ t, jsToLower s = jsToLower t →
      getConfidenceIcon s = getConfidenceIcon t ∧
      getConfidenceVariant s = getConfidenceVariant t) ∧
    (jsToLower s = "high" →
      getConfidenceIcon s = .checkCircleGreen ∧
      getConfidenceVariant s = .defaultVariant) ∧
    (jsToLower s = "medium" →
      getConfidenceIcon s = .alertTriangleYellow ∧
      getConfidenceVariant s = .secondary) ∧
    (jsToLower s = "low" →
      getConfidenceIcon s = .helpCircleOrange ∧
      getConfidenceVariant s = .outline) ∧
    (jsToLower s ≠ "high" → jsToLower s ≠ "medium" → jsToLower s ≠ "low" →
      getConfidenceIcon s = .helpCircleMuted ∧
      getConfidenceVariant s = .outline) := by
  refine ⟨?_, ?_, ?_, ?_, ?_⟩ <;> intros <;>
    simp_all [getConfidenceIcon, getConfidenceVariant]

/-- C2: medical-history normalization never yields empty or whitespace-only
elements, no element keeps leading or trailing whitespace, and an absent or
empty source yields the empty sequence. -/
theorem history_normalization (s : Option String) :
    (∀ t ∈ normalizeHistoryField s,
      t ≠ "" ∧
      (∃ c ∈ t.data, isJsWhitespace c = false) ∧
      (∀ c, t.data.head? = some c → isJsWhitespace c = false) ∧
      (∀ c, t.data.getLast? = some c → isJsWhitespace c = false)) ∧
    (s = none ∨ s = some "" → normalizeHistoryField s = []) := by
  constructor
  · intro t ht
    cases s with
    | none => simp [normalizeHistoryField] at ht
    | some str =>
      rw [normalizeHistoryField, normalizeField, List.mem_map] at ht
      obtain ⟨l, hlf, hlt⟩ := ht
      rw [List.mem_filter] at hlf
      obtain ⟨hlm, hne⟩ := hlf
      rw [List.mem_map] at hlm
      obtain ⟨seg, hsegmem, hseg⟩ := hlm
      subst hlt
      subst hseg
      cases hJ : jsTrimChars seg with
      | nil => rw [hJ] at hne; simp at hne
      | cons c cs =>
        have hc := jsTrimChars_head_false seg c cs hJ
        refine ⟨?_, ⟨c, ?_, hc⟩, ?_, ?_⟩
        · intro habs
          have hd := congrArg String.data habs
          simp at hd
        · exact List.mem_cons_self c cs
        · intro c' h
          have h' : (c :: cs).head? = some c' := h
          rw [List.head?_cons] at h'
          cases h'
          exact hc
        · intro c' h
          have h' : (jsTrimChars seg).getLast? = some c' := by
            rw [hJ]; exact h
          exact jsTrimChars_getLast_false seg c' h'
  · intro hs
    rcases hs with rfl | rfl <;> rfl

/-- C2 witness: `"Asthma, , Diabetes "` normalizes to
`["Asthma", "Diabetes"]` and its first element is trimmed and non-empty. -/
theorem history_normalization_witness :
    ("Asthma" ≠ "" ∧
      (∃ c ∈ "Asthma".data, isJsWhitespace c = false) ∧
      (∀ c, "Asthma".data.head? = some c → isJsWhitespace c = false) ∧
      (∀ c, "Asthma".data.getLast? = some c → isJsWhitespace c = false)) ∧
    normalizeHistoryField (some "Asthma, , Diabetes ") = ["Asthma", "Diabetes"] :=
  ⟨(history_normalization (some "Asthma, , Diabetes ")).1 "Asthma" (by decide),
   by decide⟩

/-- An oversized candidate file (one byte above the 10 MiB limit) whose
declared type is not even an image type. -/
def oversizedFile : BrowserFile := ⟨10485761, "text/plain", []⟩

/-- A small candidate file with a declared type outside the allow-list. -/
def gifFile : BrowserFile := ⟨4, "image/gif", [71, 73, 70, 56]⟩

/-- C4: a candidate file whose byte size exceeds 10 MiB is rejected by
`handleImageChange` with the file-too-large error regardless of its declared
media type; the preview is cleared, the stored value dropped and the raw input
control reset. -/
theorem image_size_gate (st : ImageFieldState) (files : Option (List BrowserFile))
    (f : BrowserFile) (rest : List BrowserFile) (readOk : Bool)
    (hf : files = some (f :: rest)) (hsize : MAX_FILE_SIZE < f.size) :
    handleImageChange st files readOk =
      { st with fieldError := some handleSizeErrMsg, imagePreview := none,
                fieldValue := none, inputValue := "" } := by
  subst hf
  simp only [handleImageChange]
  rw [if_pos hsize]

/-- C4 witness: a 10 MiB + 1 byte file of a non-image type is rejected with
the size error, clearing a prior preview and resetting the input control. -/
theorem image_size_gate_witness :
    MAX_FILE_SIZE < oversizedFile.size ∧
    handleImageChange ⟨some "prior-preview", none, "scan.txt", none⟩
        (some [oversizedFile]) true =
      { (⟨some "prior-preview", none, "scan.txt", none⟩ : ImageFieldState) with
          fieldError := some handleSizeErrMsg, imagePreview := none,
          fieldValue := none, inputValue := "" } :=
  ⟨by decide,
   image_size_gate ⟨some "prior-preview", none, "scan.txt", none⟩
     (some [oversizedFile]) oversizedFile [] true rfl (by decide)⟩

/-- C5: a candidate file whose declared media type is outside the allow-list
is rejected by `handleImageChange` regardless of its size (the stored value,
preview and input control are cleared and an error is set), and when the size
check passes the error is specifically the unsupported-file-type message. -/
theorem image_type_gate (st : ImageFieldState) (files : Option (List BrowserFile))
    (f : BrowserFile) (rest : List BrowserFile) (readOk : Bool)
    (hf : files = some (f :: rest))
    (htype : f.mimeType ∉ ACCEPTED_IMAGE_TYPES) :
    (handleImageChange st files readOk).fieldValue = none ∧
    (handleImageChange st files readOk).imagePreview = none ∧
    (handleImageChange st files readOk).inputValue = "" ∧
    (∃ m, (handleImageChange st files readOk).fieldError = some m) ∧
    (f.size ≤ MAX_FILE_SIZE →
      handleImageChange st files readOk =
        { st with fieldError := some handleTypeErrMsg, imagePreview := none,
                  fieldValue := none, inputValue := "" }) := by
  subst hf
  by_cases hs : f.size > MAX_FILE_SIZE
  · simp only [handleImageChange]
    rw [if_pos hs]
    exact ⟨rfl, rfl, rfl, ⟨handleSizeErrMsg, rfl⟩, fun hle => absurd hs (by omega)⟩
  · simp only [handleImageChange]
    rw [if_neg hs, if_pos htype]
    exact ⟨rfl, rfl, rfl, ⟨handleTypeErrMsg, rfl⟩, fun _ => rfl⟩

/-- C5 witness: a tiny GIF file passes the size check but is rejected with the
unsupported-file-type error. -/
theorem image_type_gate_witness :
    gifFile.mimeType ∉ ACCEPTED_IMAGE_TYPES ∧
    (handleImageChange ⟨none, none, "", none⟩ (some [gifFile]) true).fieldValue =
      none ∧
    (gifFile.size ≤ MAX_FILE_SIZE →
      handleImageChange ⟨none, none, "", none⟩ (some [gifFile]) true =
        { (⟨none, none, "", none⟩ : ImageFieldState) with
            fieldError := some handleTypeErrMsg, imagePreview := none,
            fieldValue := none, inputValue := "" }) :=
  ⟨by decide,
   (image_type_gate ⟨none, none, "", none⟩ (some [gifFile]) gifFile [] true rfl
       (by decide)).1,
   (image_type_gate ⟨none, none, "", none⟩ (some [gifFile]) gifFile [] true rfl
       (by decide)).2.2.2.2⟩

/-- Membership in an if-then-singleton-else-nil issue list forces equality
with the singleton issue. -/
theorem mem_ite_singleton {c : Prop} [Decidable c] {e lit : FieldError}
    (h : e ∈ if c then [lit] else ([] : List FieldError)) : e = lit := by
  split at h
  · exact List.mem_singleton.1 h
  · cases h

/-- No per-field issue coincides with a cross-field unit-required issue, nor
carries a unit-required message on a magnitude field. -/
theorem perFieldErrors_unit_free (d : RawForm) :
    ∀ e ∈ perFieldErrors d,
      e ≠ ⟨["weightUnit"], "Weight unit is required if weight is provided."⟩ ∧
      e ≠ ⟨["heightUnit"], "Height unit is required if height is provided."⟩ ∧
      e ≠ ⟨["weight"], "Weight unit is required if weight is provided."⟩ ∧
      e ≠ ⟨["height"], "Height unit is required if height is provided."⟩ := by
  intro e he
  simp only [perFieldErrors, List.mem_append] at he
  rcases he with ((((((h | h) | h) | h) | h) | h) | h)
  · rw [nameErrors] at h
    obtain rfl := mem_ite_singleton h
    exact ⟨by simp, by simp, by simp, by simp⟩
  · rcases hage : d.age with _ | a
    · simp only [ageErrors, hage, List.mem_singleton] at h
      obtain rfl := h
      exact ⟨by simp, by simp, by simp, by simp⟩
    · simp only [ageErrors, hage, List.mem_append] at h
      rcases h with (h | h) | h <;> obtain rfl := mem_ite_singleton h <;>
        exact ⟨by simp, by simp, by simp, by simp⟩
  · rcases hw : d.weight with _ | w <;> simp only [weightErrors, hw] at h
    · cases h
    · obtain rfl := mem_ite_singleton h
      exact ⟨by simp, by simp, by simp, by simp⟩
  · rcases hv : d.height with _ | v <;> simp only [heightErrors, hv] at h
    · cases h
    · obtain rfl := mem_ite_singleton h
      exact ⟨by simp, by simp, by simp, by simp⟩
  · rw [genderErrors] at h
    obtain rfl := mem_ite_singleton h
    exact ⟨by simp, by simp, by simp, by simp⟩
  · simp only [symptomsErrors, List.mem_append] at h
    rcases h with h | h
    · obtain rfl := mem_ite_singleton h
      exact ⟨by simp, by simp, by simp, by simp⟩
    · rw [List.mem_flatten] at h
      obtain ⟨l, hl, hel⟩ := h
      rw [List.mem_map] at hl
      obtain ⟨p, hp, rfl⟩ := hl
      simp only [symptomElementErrors, List.mem_append] at hel
      rcases hel with hel | hel <;> obtain rfl := mem_ite_singleton hel <;>
        exact ⟨by simp, by simp, by simp, by simp⟩
  · rcases hmi : d.medicalImage with _ | files
    · simp only [medicalImageErrors, hmi] at h
      cases h
    · cases files with
      | nil =>
        simp only [medicalImageErrors, hmi] at h
        cases h
      | cons f rest =>
        simp only [medicalImageErrors, hmi, List.mem_append] at h
        rcases h with h | h <;> obtain rfl := mem_ite_singleton h <;>
          exact ⟨by simp, by simp, by simp, by simp⟩

/-- Every cross-field refinement issue is one of the two unit-required
issues. -/
theorem refineErrors_mem_eq (d : RawForm) :
    ∀ e ∈ refineErrors d,
      e = ⟨["weightUnit"], "Weight unit is required if weight is provided."⟩ ∨
      e = ⟨["heightUnit"], "Height unit is required if height is provided."⟩ := by
  intro e he
  rw [refineErrors] at he
  rcases List.mem_append.1 he with h | h
  · exact Or.inl (mem_ite_singleton h)
  · exact Or.inr (mem_ite_singleton h)

/-- C1 (amended): on every raw form state whose base parse is not aborted by
a fatal type-level failure, a present nonzero weight with an absent
weightUnit makes validation fail with the unit-required issue attached to
`weightUnit` and never to `weight` (it may sit next to a non-fatal issue on
`weight`, e.g. for a negative weight, since failed checks are dirty, not
aborting, and the refinements still run); symmetrically for
height/heightUnit. -/
theorem unit_required_attached (d : RawForm) (hab : baseAborted d = false) :
    (∀ w, d.weight = some w → w ≠ 0 → d.weightUnit = none →
      formValidate d ≠ [] ∧
      (⟨["weightUnit"], "Weight unit is required if weight is provided."⟩ :
        FieldError) ∈ formValidate d ∧
      (⟨["weight"], "Weight unit is required if weight is provided."⟩ :
        FieldError) ∉ formValidate d) ∧
    (∀ v, d.height = some v → v ≠ 0 → d.heightUnit = none →
      formValidate d ≠ [] ∧
      (⟨["heightUnit"], "Height unit is required if height is provided."⟩ :
        FieldError) ∈ formValidate d ∧
      (⟨["height"], "Height unit is required if height is provided."⟩ :
        FieldError) ∉ formValidate d) := by
  have hform : formValidate d = perFieldErrors d ++ refineErrors d := by
    simp [formValidate, hab]
  constructor
  · intro w hw hw0 hwu
    have htr : (truthyNum d.weight && !truthyStr d.weightUnit) = true := by
      rw [hw, hwu]
      simp [truthyNum, truthyStr]
      exact hw0
    have hmem :
        (⟨["weightUnit"], "Weight unit is required if weight is provided."⟩ :
          FieldError) ∈ formValidate d := by
      rw [hform, refineErrors, if_pos htr]
      exact List.mem_append_right _
        (List.mem_append_left _ (List.mem_singleton.2 rfl))
    have hne : formValidate d ≠ [] := by
      intro hnil
      rw [hnil] at hmem
      cases hmem
    refine ⟨hne, hmem, ?_⟩
    intro habs
    rw [hform] at habs
    rcases List.mem_append.1 habs with h | h
    · exact absurd rfl (perFieldErrors_unit_free d _ h).2.2.1
    · rcases refineErrors_mem_eq d _ h with h' | h' <;> exact absurd h' (by simp)
  · intro v hv hv0 hvu
    have htr : (truthyNum d.height && !truthyStr d.heightUnit) = true := by
      rw [hv, hvu]
      simp [truthyNum, truthyStr]
      exact hv0
    have hmem :
        (⟨["heightUnit"], "Height unit is required if height is provided."⟩ :
          FieldError) ∈ formValidate d := by
      rw [hform, refineErrors, if_pos htr]
      exact List.mem_append_right _
        (List.mem_append_right _ (List.mem_singleton.2 rfl))
    have hne : formValidate d ≠ [] := by
      intro hnil
      rw [hnil] at hmem
      cases hmem
    refine ⟨hne, hmem, ?_⟩
    intro habs
    rw [hform] at habs
    rcases List.mem_append.1 habs with h | h
    · exact absurd rfl (perFieldErrors_unit_free d _ h).2.2.2
    · rcases refineErrors_mem_eq d _ h with h' | h' <;> exact absurd h' (by simp)

/-- A form state that is fully valid except that the provided weight has no
unit. -/
def weightNoUnitForm : RawForm :=
  { name := "Jane", age := some 30, weight := some 70, weightUnit := none,
    height := none, heightUnit := none, gender := "Female",
    symptoms := [⟨"Headache", "Mild"⟩],
    medicalHistory := ⟨some "", none⟩, medicalImage := none }

/-- C1 witness: on the valid-but-unitless form the unit-required issue is
attached to `weightUnit` and never to `weight`. -/
theorem unit_required_attached_witness :
    formValidate weightNoUnitForm ≠ [] ∧
    (⟨["weightUnit"], "Weight unit is required if weight is provided."⟩ :
      FieldError) ∈ formValidate weightNoUnitForm ∧
    (⟨["weight"], "Weight unit is required if weight is provided."⟩ :
      FieldError) ∉ formValidate weightNoUnitForm :=
  (unit_required_attached weightNoUnitForm (by decide)).1 70 rfl (by decide) rfl

/-- A raw form state whose age is absent (coercing to NaN, so the base parse
aborts on a fatal invalid-type issue), with weight present and weightUnit
absent; every other field valid. -/
def nanAgeForm : RawForm :=
  { name := "Jo", age := none, weight := some 70, weightUnit := none,
    height := none, heightUnit := none, gender := "Other",
    symptoms := [⟨"Headache", "Mild"⟩],
    medicalHistory := ⟨some "", some ""⟩, medicalImage := none }

/-- A raw form state with weight present but zero and weightUnit absent;
every other field valid. -/
def zeroWeightForm : RawForm :=
  { name := "Jo", age := some 30, weight := some 0, weightUnit := none,
    height := none, heightUnit := none, gender := "Other",
    symptoms := [⟨"Headache", "Mild"⟩],
    medicalHistory := ⟨some "", some ""⟩, medicalImage := none }

/-- C1 counterexample: two raw form states with weight present and weightUnit
absent on which validation fails yet no issue at all is attached to
`weightUnit`: an absent age coerces to NaN, aborting the base parse so the
refinements are skipped; and a present weight of `0` is falsy in the
refinement's JS truthiness test `data.weight ? ...`, so the unit-required
check passes vacuously.  Either input refutes the claim as stated over every
raw form state. -/
theorem unit_required_counterexample :
    (nanAgeForm.weight = some 70 ∧ nanAgeForm.weightUnit = none ∧
      formValidate nanAgeForm ≠ [] ∧
      ∀ e ∈ formValidate nanAgeForm, e.path ≠ ["weightUnit"]) ∧
    (zeroWeightForm.weight = some 0 ∧ zeroWeightForm.weightUnit = none ∧
      formValidate zeroWeightForm ≠ [] ∧
      ∀ e ∈ formValidate zeroWeightForm, e.path ≠ ["weightUnit"]) := by
  constructor <;> refine ⟨rfl, rfl, ?_, ?_⟩ <;> decide

/-- C6 witness: `"HIGH"` is recognized case-insensitively as the High tier. -/
theorem confidence_classifier_total_witness :
    getConfidenceIcon "HIGH" = .checkCircleGreen ∧
    getConfidenceVariant "HIGH" = .defaultVariant :=
  (confidence_classifier_total "HIGH").2.1 (by decide)

/-- C3: for a valid submission the request object handed to the inference call
is the flattened union of the profile fields, the symptom sequence, the
normalized medical history and the optional encoded image: each field is
passed through `buildAnalyzeInput` unchanged; when no image was accepted the
`imageDataUri` field is `none` (never an empty string), and when one was
accepted it is a media-type-prefixed base64 data-URI string. -/
theorem canonical_request (st : ComponentState)
    (_hvalid : formValidate st.formData = [])
    (g : Except Unit AnalyzeSymptomsOutput) :
    ((st.formData.medicalImage = none ∨ st.formData.medicalImage = some []) →
      (onSubmit st true g).2 = some (buildAnalyzeInput st.formData none) ∧
      (buildAnalyzeInput st.formData none).imageDataUri = none) ∧
    (∀ f rest, st.formData.medicalImage = some (f :: rest) →
      (onSubmit st true g).2 =
        some (buildAnalyzeInput st.formData (some (readAsDataURL f))) ∧
      (buildAnalyzeInput st.formData (some (readAsDataURL f))).imageDataUri =
        some (readAsDataURL f) ∧
      IsDataUri (readAsDataURL f)) ∧
    (∀ uri,
      (buildAnalyzeInput st.formData uri).name = st.formData.name ∧
      (buildAnalyzeInput st.formData uri).age = st.formData.age ∧
      (buildAnalyzeInput st.formData uri).weight = st.formData.weight ∧
      (buildAnalyzeInput st.formData uri).weightUnit = st.formData.weightUnit ∧
      (buildAnalyzeInput st.formData uri).height = st.formData.height ∧
      (buildAnalyzeInput st.formData uri).heightUnit = st.formData.heightUnit ∧
      (buildAnalyzeInput st.formData uri).gender = st.formData.gender ∧
      (buildAnalyzeInput st.formData uri).symptoms = st.formData.symptoms ∧
      (buildAnalyzeInput st.formData uri).medicalHistory =
        formatMedicalHistory st.formData.medicalHistory ∧
      (buildAnalyzeInput st.formData uri).imageDataUri = uri) := by
  refine ⟨?_, ?_, ?_⟩
  · intro h
    rcases h with h | h <;> cases g <;>
      simp [onSubmit, h, buildAnalyzeInput]
  · intro f rest h
    refine ⟨?_, rfl, readAsDataURL_isDataUri f⟩
    cases g <;> simp [onSubmit, h]
  · intro uri
    exact ⟨rfl, rfl, rfl, rfl, rfl, rfl, rfl, rfl, rfl, rfl⟩

/-- A fully valid form state with no accepted image. -/
def noImageForm : RawForm :=
  { name := "Jane", age := some 30, weight := some 70,
    weightUnit := some "kg", height := none, heightUnit := none,
    gender := "Female", symptoms := [⟨"Headache", "Mild"⟩],
    medicalHistory := ⟨some "Asthma, , Diabetes ", none⟩,
    medicalImage := none }

/-- The component state holding `noImageForm`. -/
def noImageState : ComponentState :=
  { isLoading := false, results := none, error := none, formData := noImageForm }

/-- C3 witness: submitting the valid no-image form passes the flat request
with an absent (`none`) image field to the inference call. -/
theorem canonical_request_witness :
    (onSubmit noImageState true (.ok ⟨[]⟩)).2 =
      some (buildAnalyzeInput noImageState.formData none) ∧
    (buildAnalyzeInput noImageState.formData none).imageDataUri = none :=
  (canonical_request noImageState (by decide) (.ok ⟨[]⟩)).1 (Or.inl rfl)

/-- C9: `onSubmit` never rewrites the form field values; a submit-time image
re-encoding failure aborts the submission before any network call and
surfaces the single generic image-processing message; an inference-gateway
failure (after the call was made) surfaces the single generic analysis
message; in both cases no results are set and the form data is intact so the
user may retry. -/
theorem submission_level_errors (st : ComponentState)
    (g : Except Unit AnalyzeSymptomsOutput) :
    (∀ encodeOk gw, ((onSubmit st encodeOk gw).1).formData = st.formData) ∧
    (∀ f rest, st.formData.medicalImage = some (f :: rest) →
      (onSubmit st false g).2 = none ∧
      (onSubmit st false g).1.error = some imageProcessErrorMsg ∧
      (onSubmit st false g).1.results = none ∧
      (onSubmit st false g).1.formData = st.formData) ∧
    (∀ encodeOk, (onSubmit st encodeOk (.error ())).2 ≠ none →
      (onSubmit st encodeOk (.error ())).1.error = some analysisErrorMsg ∧
      (onSubmit st encodeOk (.error ())).1.results = none ∧
      (onSubmit st encodeOk (.error ())).1.formData = st.formData) := by
  refine ⟨?_, ?_, ?_⟩
  · intro encodeOk gw
    cases hmi : st.formData.medicalImage with
    | none => cases gw <;> simp [onSubmit, hmi]
    | some l =>
      cases l with
      | nil => cases gw <;> simp [onSubmit, hmi]
      | cons f rest =>
        cases encodeOk <;> cases gw <;> simp [onSubmit, hmi]
  · intro f rest hmi
    simp [onSubmit, hmi]
  · intro encodeOk hcall
    cases hmi : st.formData.medicalImage with
    | none => simp [onSubmit, hmi]
    | some l =>
      cases l with
      | nil => simp [onSubmit, hmi]
      | cons f rest =>
        cases encodeOk with
        | false =>
          rw [show (onSubmit st false (.error ())).2 = none by
            simp [onSubmit, hmi]] at hcall
          exact absurd rfl hcall
        | true => simp [onSubmit, hmi]

/-- The valid form state with an accepted image attached. -/
def withImageForm : RawForm :=
  { noImageForm with medicalImage := some [⟨4, "image/png", [1, 2, 3, 4]⟩] }

/-- The component state holding `withImageForm`. -/
def withImageState : ComponentState :=
  { isLoading := false, results := none, error := none,
    formData := withImageForm }

/-- C9 witness: when the submit-time re-encode of the attached image fails,
the submission aborts with no network call, the generic image-processing
message is surfaced, no results are set and the form data is unchanged. -/
theorem submission_level_errors_witness :
    (onSubmit withImageState false (.ok ⟨[]⟩)).2 = none ∧
    (onSubmit withImageState false (.ok ⟨[]⟩)).1.error =
      some imageProcessErrorMsg ∧
    (onSubmit withImageState false (.ok ⟨[]⟩)).1.results = none ∧
    (onSubmit withImageState false (.ok ⟨[]⟩)).1.formData =
      withImageState.formData :=
  (submission_level_errors withImageState (.ok ⟨[]⟩)).2.1
    ⟨4, "image/png", [1, 2, 3, 4]⟩ [] rfl

end Studio
